import Mathlib

/-!
Verification of `run-eval.mjs` (Travrse eval runner CLI).

This file shallowly embeds the data-path logic of the script:
JavaScript objects whose fields may arrive under a snake_case or a
camelCase name are modelled as structures carrying both variants as
`Option` fields (`none` = absent/`undefined`/`null`); JS strings are Lean
`String`s (one `Char` per JS character); JS numbers that the script only
ever adds, compares and formats (costs) are `ℚ`; counters and durations
are `Int`.  The poll loop is embedded as a fuel-indexed recursion over an
abstract sequence of server responses and an abstract elapsed-time
function (the `sleep` between iterations only advances time, which the
elapsed function models).
-/

namespace RunEval

/-- A JavaScript value as it can appear in the `output` field of a step
result.  Numeric payloads are modelled as integers: no property proved
here depends on float rendering. -/
inductive JsValue where
  | null
  | undef
  | bool (b : Bool)
  | num (n : Int)
  | str (s : String)
  | arr (elems : List JsValue)
  | obj (fields : List (String × JsValue))

/-- JavaScript truthiness test (`!v`), restricted to the values of
`JsValue`: `null`, `undefined`, `false`, `0` and `""` are falsy. -/
def jsFalsy : JsValue → Bool
  | .null => true
  | .undef => true
  | .bool b => !b
  | .num n => n == 0
  | .str s => s == ""
  | .arr _ => false
  | .obj _ => false

/-- JavaScript `a || b` on two optional strings: the second operand is
taken exactly when the first is absent or falsy (the empty string). -/
def jsOrS (a b : Option String) : Option String :=
  match a with
  | some s => if s = "" then b else some s
  | none => b

/-- JavaScript `a || b` on two optional numbers: the second operand is
taken exactly when the first is absent or falsy (zero). -/
def jsOrI (a b : Option Int) : Option Int :=
  match a with
  | some n => if n = 0 then b else some n
  | none => b

/-- JavaScript `o || d` where `d` is a string default: yields `d` when
`o` is absent or the empty string. -/
def jsStrOrD (o : Option String) (d : String) : String :=
  match o with
  | some s => if s = "" then d else s
  | none => d

/-- JavaScript `o || d` where `d` is a numeric default: yields `d` when
`o` is absent or zero. -/
def jsIntOrD (o : Option Int) (d : Int) : Int :=
  match o with
  | some n => if n = 0 then d else n
  | none => d

/-- JavaScript `a || b` on two `JsValue`s. -/
def jsOrV (a b : JsValue) : JsValue :=
  if jsFalsy a then b else a

/-- `Array.prototype.join(sep)`: empty list gives `""`, otherwise the
elements interleaved with the separator. -/
def jsJoin (sep : String) : List String → String
  | [] => ""
  | [x] => x
  | x :: y :: xs => x ++ sep ++ jsJoin sep (y :: xs)

/-- `String.prototype.substring(0, n)`: the first `n` characters. -/
def jsSubstring (s : String) (n : Nat) : String :=
  ⟨s.data.take n⟩

/-- `String.prototype.endsWith(t)`. -/
def jsEndsWith (s t : String) : Bool :=
  t.data.isSuffixOf s.data

/-- `String.prototype.slice(0, -n)` (equally, dropping the last `n`
characters). -/
def jsDropRight (s : String) (n : Nat) : String :=
  ⟨s.data.take (s.data.length - n)⟩

/-- Escaping of one character inside a JSON string literal. -/
def jsonEscapeChar (c : Char) : List Char :=
  if c = '"' then ['\\', '"']
  else if c = '\\' then ['\\', '\\']
  else if c = '\n' then ['\\', 'n']
  else if c = '\t' then ['\\', 't']
  else if c = '\r' then ['\\', 'r']
  else [c]

/-- Escaping of a whole JSON string body. -/
def jsonEscape (s : String) : String :=
  ⟨s.data.flatMap jsonEscapeChar⟩

mutual

/-- `JSON.stringify(v)`, modelled for the `JsValue` grammar.  (At the
top level `JSON.stringify(undefined)` is not a string in JS; that case is
unreachable in `truncateText`, which short-circuits on falsy input, and
is rendered here as `"null"` like an array element.) -/
def jsonStringify : JsValue → String
  | .null => "null"
  | .undef => "null"
  | .bool b => if b then "true" else "false"
  | .num n => toString n
  | .str s => "\"" ++ jsonEscape s ++ "\""
  | .arr es => "[" ++ jsJoin "," (jsonStringifyList es) ++ "]"
  | .obj fs => "\x7b" ++ jsJoin "," (jsonStringifyFields fs) ++ "\x7d"

/-- `JSON.stringify` of the elements of an array. -/
def jsonStringifyList : List JsValue → List String
  | [] => []
  | v :: vs => jsonStringify v :: jsonStringifyList vs

/-- `JSON.stringify` of the fields of an object. -/
def jsonStringifyFields : List (String × JsValue) → List String
  | [] => []
  | (k, v) :: fs => ("\"" ++ jsonEscape k ++ "\":" ++ jsonStringify v) :: jsonStringifyFields fs

end

/-- `truncateText(text, maxLength)` from `run-eval.mjs` (lines 64-71):
falsy input yields `''`; a non-string is serialized with
`JSON.stringify`; text within the limit is returned unchanged; longer
text is clipped to `maxLength - 3` characters plus `'...'`.  (The source
declares a default `maxLength` of 50, unused: every call passes 40.) -/
def truncateText (v : JsValue) (maxLength : Nat) : String :=
  if jsFalsy v then ""
  else
    let text := match v with
      | .str s => s
      | _ => jsonStringify v
    if text.length ≤ maxLength then text
    else jsSubstring text (maxLength - 3) ++ "..."

/-- Second normalization step for `API_BASE_URL` (line 39 of
`run-eval.mjs`): `replace(/\/$/, '')`, removing one trailing slash. -/
def stripTrailingSlash (u : String) : String :=
  if jsEndsWith u "/" then jsDropRight u 1 else u

/-- Normalization of `API_BASE_URL` from `run-eval.mjs` (lines 34-39):
first a trailing `/api` is sliced off if present (`slice(0, -4)`), then
one trailing slash is removed. -/
def normalizeBaseUrl (url : String) : String :=
  stripTrailingSlash (if jsEndsWith url "/api" then jsDropRight url 4 else url)

/-- A submission as it may arrive from the server inside the
`POST /eval/submit` response: each display field can come under its
snake_case or its camelCase name (`none` = absent). -/
structure RawSubmission where
  eval_name : Option String
  evalName : Option String
  batch_execution_id : Option String
  batchExecutionId : Option String
  status : Option String
  queue_name : Option String
  queueName : Option String

/-- A submission after `submitEval`'s normalization: snake_case only. -/
structure Submission where
  eval_name : Option String
  batch_execution_id : Option String
  status : Option String
  queue_name : Option String

/-- The parsed body of a `POST /eval/submit` response. -/
structure SubmitResponse where
  eval_group_id : Option String
  evalGroupId : Option String
  total_evals : Option Int
  totalEvals : Option Int
  submissions : Option (List RawSubmission)

/-- The value `submitEval` returns. -/
structure SubmitResult where
  eval_group_id : Option String
  total_evals : Option Int
  submissions : List Submission

/-- A server-reported batch status record, with both naming variants of
every field the script reads. -/
structure Batch where
  batch_execution_id : Option String
  batchExecutionId : Option String
  eval_name : Option String
  evalName : Option String
  status : String
  total_records : Option Int
  totalRecords : Option Int
  processed_records : Option Int
  processedRecords : Option Int
  failed_records : Option Int
  failedRecords : Option Int

/-- The parsed body of a `GET /eval/batches` response. -/
structure BatchesResponse where
  batches : Option (List Batch)

/-- One execution step's outcome within a record, with both naming
variants of every field the script reads. -/
structure StepResult where
  step_name : Option String
  stepName : Option String
  step_type : Option String
  stepType : Option String
  model_used : Option String
  modelUsed : Option String
  record_name : Option String
  recordName : Option String
  duration_ms : Option Int
  durationMs : Option Int
  total_cost : Option ℚ
  totalCost : Option ℚ
  output : JsValue
  outputPreview : JsValue

/-- The parsed body of a `GET /eval/{id}/results` response.  The record
map is an association list in the server's key order (`Object.keys`
order). -/
structure ResultSet where
  eval_name : Option String
  evalName : Option String
  results_by_record : Option (List (String × List StepResult))

/-- `formatDuration`-style fixed 4-decimal rendering used by
`formatCost`: `cost.toFixed(4)`, modelled on `ℚ` with rounding to the
nearest 1/10000 (`round` = half-up; the bit-exact tie behaviour of JS
doubles is outside this model and no claim depends on it). -/
def toFixed4 (q : ℚ) : String :=
  let scaled : Int := round (q * 10000)
  let sign := if scaled < 0 then "-" else ""
  let a := scaled.natAbs
  sign ++ toString (a / 10000) ++ "." ++
    String.mk (List.replicate (4 - (toString (a % 10000)).data.length) '0'
      ++ (toString (a % 10000)).data)

/-- `formatCost(cost)` from `run-eval.mjs` (lines 59-62): `null` or
`undefined` render as `N/A`, a number as `$` plus its 4-decimal form. -/
def formatCost : Option ℚ → String
  | none => "N/A"
  | some c => "$" ++ toFixed4 c

/-- The per-step cost selection used by `calculateTotalCost` and the
detail renderers: `total_cost` if non-null, else `totalCost` if
non-null, else 0. -/
def stepCost (st : StepResult) : ℚ :=
  match st.total_cost with
  | some c => c
  | none =>
    match st.totalCost with
    | some c => c
    | none => 0

/-- `calculateTotalCost(results)` from `run-eval.mjs` (lines 208-224):
0 when `results_by_record` is absent, otherwise one accumulator summed
over every step of every record. -/
def calculateTotalCost (results : ResultSet) : ℚ :=
  match results.results_by_record with
  | none => 0
  | some records =>
    records.foldl (fun acc p => p.2.foldl (fun a st => a + stepCost st) acc) 0

/-- The normalization `submitEval` applies to each submission
(lines 130-135): every snake_case field takes the snake_case value if
truthy, else the camelCase value; `status` is copied as-is. -/
def normalizeSubmission (s : RawSubmission) : Submission :=
  { eval_name := jsOrS s.eval_name s.evalName
    batch_execution_id := jsOrS s.batch_execution_id s.batchExecutionId
    status := s.status
    queue_name := jsOrS s.queue_name s.queueName }

/-- `submitEval` (lines 111-142), from the parsed response body to the
returned value: the HTTP layer is outside this model, so the function
maps the successful response to the result the caller sees. -/
def submitEval (response : SubmitResponse) : SubmitResult :=
  { eval_group_id := jsOrS response.eval_group_id response.evalGroupId
    total_evals := jsOrI response.total_evals response.totalEvals
    submissions := (response.submissions.getD []).map normalizeSubmission }

/-- `getEvalBatches` (lines 144-147): it returns `makeRequest`'s parsed
body unchanged — no field renaming happens on this path.  The status
filter only affects which batches the server includes. -/
def getEvalBatches (status : Option String) (response : BatchesResponse) : BatchesResponse :=
  response

/-- `getEvalResults` (lines 149-151): it returns `makeRequest`'s parsed
body unchanged — no field renaming happens on this path. -/
def getEvalResults (batchExecutionId : String) (response : ResultSet) : ResultSet :=
  response

/-- The batch id a poll iteration or the summary table reads:
`batch.batch_execution_id || batch.batchExecutionId`. -/
def jsBatchId (b : Batch) : Option String :=
  jsOrS b.batch_execution_id b.batchExecutionId

/-- The per-batch cost the summary table computes (lines 236-240):
`calculateTotalCost` of the fetched ResultSet when the map has one for
this batch's id, else the initial 0. -/
def batchTotalCost (m : List (String × ResultSet)) (b : Batch) : ℚ :=
  match jsBatchId b with
  | some id =>
    match m.lookup id with
    | some rs => calculateTotalCost rs
    | none => 0
  | none => 0

/-- The Total Cost cell (line 242):
`totalCost > 0 ? formatCost(totalCost) : 'N/A'`. -/
def summaryCostStr (m : List (String × ResultSet)) (b : Batch) : String :=
  let totalCost := batchTotalCost m b
  if 0 < totalCost then formatCost (some totalCost) else "N/A"

/-- One summary-table row (lines 243-249). -/
def summaryRow (m : List (String × ResultSet)) (b : Batch) : String :=
  let costStr := summaryCostStr m b
  let evalName := jsStrOrD (jsOrS b.eval_name b.evalName) "N/A"
  let totalRecords := jsIntOrD (jsOrI b.total_records b.totalRecords) 0
  let processedRecords := jsIntOrD (jsOrI b.processed_records b.processedRecords) 0
  let failedRecords := jsIntOrD (jsOrI b.failed_records b.failedRecords) 0
  "| " ++ evalName ++ " | " ++ toString totalRecords ++ " | " ++
    toString processedRecords ++ " | " ++ toString failedRecords ++ " | " ++
    b.status ++ " | " ++ costStr ++ " |"

/-- `generateSummaryTable(batches, detailedResultsMap)`
(lines 226-254). -/
def generateSummaryTable (batches : List Batch) (m : List (String × ResultSet)) : String :=
  jsJoin "\n"
    (["## Summary", "",
      "| Eval Name | Total Records | Processed | Failed | Status | Total Cost |",
      "|-----------|---------------|-----------|--------|--------|------------|"]
      ++ batches.map (summaryRow m) ++ [""])

/-- One detail-table row as built by `generateDetailedResultsMarkdown`
(lines 283-299). -/
def mdStepRow (st : StepResult) : String :=
  let stepName := jsStrOrD (jsOrS st.step_name st.stepName) "N/A"
  let stepType := jsStrOrD (jsOrS st.step_type st.stepType) "N/A"
  let model := jsStrOrD (jsOrS st.model_used st.modelUsed) "N/A"
  let duration :=
    match st.duration_ms with
    | some d => toString d
    | none =>
      match st.durationMs with
      | some d => toString d
      | none => "N/A"
  let cost :=
    match st.total_cost with
    | some c => formatCost (some c)
    | none =>
      match st.totalCost with
      | some c => formatCost (some c)
      | none => "N/A"
  let outputPreview := truncateText (jsOrV st.output st.outputPreview) 40
  "| " ++ stepName ++ " | " ++ stepType ++ " | " ++ model ++ " | " ++
    duration ++ " | " ++ cost ++ " | " ++ outputPreview ++ " |"

/-- The lines `generateDetailedResultsMarkdown` pushes for one record
(lines 271-303): nothing for a record with no steps, otherwise the
record heading, a blank line, the table header and separator, one row
per step, and a trailing blank line. -/
def mdRecordLines (p : String × List StepResult) : List String :=
  match p.2 with
  | [] => []
  | first :: rest =>
    let recordName := jsStrOrD (jsOrS first.record_name first.recordName) p.1
    ["### Record: " ++ recordName, "",
     "| Step Name | Step Type | Model | Duration (ms) | Cost | Output Preview |",
     "|-----------|-----------|-------|---------------|------|----------------|"]
      ++ (first :: rest).map mdStepRow ++ [""]

/-- The `lines` array `generateDetailedResultsMarkdown` builds
(lines 256-305). -/
def generateDetailedResultsLines (results : ResultSet) : List String :=
  let evalName := jsStrOrD (jsOrS results.eval_name results.evalName) "Unknown"
  let records := results.results_by_record.getD []
  if records.length = 0 then
    ["## Detailed Results: " ++ evalName, "", "No results found.", ""]
  else
    ["## Detailed Results: " ++ evalName, ""] ++ records.flatMap mdRecordLines

/-- `generateDetailedResultsMarkdown(results)` (lines 256-306):
the built lines joined with newlines. -/
def generateDetailedResultsMarkdown (results : ResultSet) : String :=
  jsJoin "\n" (generateDetailedResultsLines results)

/-- One detail-table row as built by `displayDetailedResults`
(lines 331-347) — the console path's own copy of the row code. -/
def conStepRow (st : StepResult) : String :=
  let stepName := jsStrOrD (jsOrS st.step_name st.stepName) "N/A"
  let stepType := jsStrOrD (jsOrS st.step_type st.stepType) "N/A"
  let model := jsStrOrD (jsOrS st.model_used st.modelUsed) "N/A"
  let duration :=
    match st.duration_ms with
    | some d => toString d
    | none =>
      match st.durationMs with
      | some d => toString d
      | none => "N/A"
  let cost :=
    match st.total_cost with
    | some c => formatCost (some c)
    | none =>
      match st.totalCost with
      | some c => formatCost (some c)
      | none => "N/A"
  let outputPreview := truncateText (jsOrV st.output st.outputPreview) 40
  "| " ++ stepName ++ " | " ++ stepType ++ " | " ++ model ++ " | " ++
    duration ++ " | " ++ cost ++ " | " ++ outputPreview ++ " |"

/-- The `console.log` arguments `displayDetailedResults` emits for one
record (lines 320-351).  The record heading carries an embedded `\n`,
matching the source string; the trailing `console.log('')` is the final
`""`. -/
def conRecordCalls (p : String × List StepResult) : List String :=
  match p.2 with
  | [] => []
  | first :: rest =>
    let recordName := jsStrOrD (jsOrS first.record_name first.recordName) p.1
    ["### Record: " ++ recordName ++ "\n",
     "| Step Name | Step Type | Model | Duration (ms) | Cost | Output Preview |",
     "|-----------|-----------|-------|---------------|------|----------------|"]
      ++ (first :: rest).map conStepRow ++ [""]

/-- The full sequence of `console.log` arguments of
`displayDetailedResults(results)` (lines 308-352). -/
def displayDetailedResultsCalls (results : ResultSet) : List String :=
  let evalName := jsStrOrD (jsOrS results.eval_name results.evalName) "Unknown"
  let records := results.results_by_record.getD []
  if records.length = 0 then
    ["## Detailed Results: " ++ evalName ++ "\n", "No results found.\n"]
  else
    ("## Detailed Results: " ++ evalName ++ "\n") :: records.flatMap conRecordCalls

/-- The text a sequence of `console.log` calls writes: each argument
followed by one newline. -/
def consoleOutput : List String → String
  | [] => ""
  | c :: cs => c ++ "\n" ++ consoleOutput cs

/-- The text `displayDetailedResults(results)` writes to the console. -/
def displayDetailedResultsOutput (results : ResultSet) : String :=
  consoleOutput (displayDetailedResultsCalls results)

/-- One poll iteration's network outcome: `err` models any error thrown
while fetching or processing the status response (caught at line 201),
`ok` a parsed response body. -/
inductive PollResp where
  | err
  | ok (response : BatchesResponse)

/-- How a `pollForCompletion` run ends: the timeout `Error` thrown at
iteration `n` (line 165), or the filtered batch list returned at
iteration `n` (line 196). -/
inductive PollOutcome where
  | timeout (n : Nat)
  | returned (n : Nat) (batches : List Batch)

/-- The termination test per batch (lines 190-192):
`status === 'completed' || status === 'failed'`. -/
def isFinishedBatch (b : Batch) : Bool :=
  b.status == "completed" || b.status == "failed"

/-- The filter predicate of lines 173-176: the batch's id (either
naming variant) is one of the submitted ids.  `Array.includes` matches
`undefined` against `undefined`, hence membership over
`Option String`. -/
def isOurBatch (batchIds : List (Option String)) (b : Batch) : Bool :=
  batchIds.contains (jsBatchId b)

/-- The batch list a poll response carries:
`batchesResponse.batches || []`. -/
def rawBatchesOf : PollResp → List Batch
  | .err => []
  | .ok resp => resp.batches.getD []

/-- The `ourBatches` list of one iteration (lines 173-176). -/
def ourBatchesOf (batchIds : List (Option String)) (r : PollResp) : List Batch :=
  (rawBatchesOf r).filter (isOurBatch batchIds)

/-- Whether one poll iteration makes the loop return: the response
parsed and every tracked batch it contains terminal (vacuously true
when it contains none); an error never returns. -/
def pollIterReturns (batchIds : List (Option String)) : PollResp → Bool
  | .err => false
  | .ok resp =>
    (((getEvalBatches none resp).batches.getD []).filter (isOurBatch batchIds)).all
      isFinishedBatch

/-- `pollForCompletion` (lines 153-206) as a fuel-indexed loop.
`elapsed n` abstracts `Date.now() - startTime` at iteration `n`'s
deadline check; `responses n` is the outcome of the `n`-th
`getEvalBatches` call; the fixed sleep between iterations only advances
`elapsed`.  Each iteration first checks the deadline, then fetches:
a terminal set returns, an error or a non-terminal set sleeps and
retries.  `none` means the fuel ran out before the loop ended. -/
def pollRun (batchIds : List (Option String)) (responses : Nat → PollResp)
    (elapsed : Nat → Nat) (maxWait : Nat) : Nat → Nat → Option PollOutcome
  | 0, _ => none
  | fuel + 1, n =>
    if maxWait < elapsed n then some (.timeout n)
    else
      match responses n with
      | .err => pollRun batchIds responses elapsed maxWait fuel (n + 1)
      | .ok resp =>
        let ourBatches :=
          ((getEvalBatches none resp).batches.getD []).filter (isOurBatch batchIds)
        if ourBatches.all isFinishedBatch then some (.returned n ourBatches)
        else pollRun batchIds responses elapsed maxWait fuel (n + 1)

/-- A batch whose fields arrived only under camelCase names, as the
status endpoint may deliver it. -/
def camelOnlyBatch : Batch :=
  { batch_execution_id := none
    batchExecutionId := some "b1"
    eval_name := none
    evalName := some "e1"
    status := "completed"
    total_records := none
    totalRecords := some 3
    processed_records := none
    processedRecords := some 3
    failed_records := none
    failedRecords := some 0 }

/-- A result set whose eval name arrived only under a camelCase key. -/
def camelOnlyResultSet : ResultSet :=
  { eval_name := none
    evalName := some "e1"
    results_by_record := some [] }

/-- A batch carrying both variants of `total_records`, the snake_case
one holding the non-null value 0. -/
def bothVariantsBatch : Batch :=
  { batch_execution_id := none
    batchExecutionId := none
    eval_name := none
    evalName := none
    status := "completed"
    total_records := some 0
    totalRecords := some 5
    processed_records := none
    processedRecords := none
    failed_records := none
    failedRecords := none }

/-- A step result with no populated fields. -/
def emptyStep : StepResult :=
  { step_name := none, stepName := none, step_type := none, stepType := none
    model_used := none, modelUsed := none, record_name := none, recordName := none
    duration_ms := none, durationMs := none, total_cost := none, totalCost := none
    output := .undef, outputPreview := .undef }

/-- A fetched result set whose only step has a present cost of zero. -/
def zeroCostResultSet : ResultSet :=
  { eval_name := some "e1"
    evalName := none
    results_by_record := some [("r1", [{ emptyStep with total_cost := some 0 },
                                       { emptyStep with total_cost := some 0 }])] }

/-- A completed batch whose results were fetched under id `b1`. -/
def fetchedBatch : Batch :=
  { batch_execution_id := some "b1"
    batchExecutionId := none
    eval_name := some "e1"
    evalName := none
    status := "completed"
    total_records := some 2
    totalRecords := none
    processed_records := some 2
    processedRecords := none
    failed_records := none
    failedRecords := none }

/-- The tracked ids (line 154): `submissions.map(s => s.batch_execution_id)`. -/
def submissionBatchIds (submissions : List Submission) : List (Option String) :=
  submissions.map (fun s => s.batch_execution_id)

/-- Whether a batch with the given id appears in a poll response. -/
def batchAppears (id : String) : PollResp → Bool
  | .err => false
  | .ok resp => (resp.batches.getD []).any (fun b => jsBatchId b == some id)

/-- The single submission of the C1 scenario. -/
def lonelySubmission : Submission :=
  { eval_name := some "e1", batch_execution_id := some "b1"
    status := some "queued", queue_name := none }

/-- A response sequence that never lists any batch at all. -/
def emptyPollResponses : Nat → PollResp :=
  fun _ => .ok { batches := some [] }

/-- Batch `b1` still running. -/
def runningBatch : Batch :=
  { batch_execution_id := some "b1", batchExecutionId := none
    eval_name := some "e1", evalName := none, status := "running"
    total_records := some 1, totalRecords := none
    processed_records := some 0, processedRecords := none
    failed_records := some 0, failedRecords := none }

/-- A response sequence that always shows `b1` running. -/
def stuckResponses : Nat → PollResp :=
  fun _ => .ok { batches := some [runningBatch] }

/-- Batch `b1` completed. -/
def b1completed : Batch :=
  { batch_execution_id := some "b1", batchExecutionId := none
    eval_name := some "e1", evalName := none, status := "completed"
    total_records := some 1, totalRecords := none
    processed_records := some 1, processedRecords := none
    failed_records := some 0, failedRecords := none }

/-- Batch `b2` completed. -/
def b2completed : Batch :=
  { batch_execution_id := some "b2", batchExecutionId := none
    eval_name := some "e2", evalName := none, status := "completed"
    total_records := some 1, totalRecords := none
    processed_records := some 1, processedRecords := none
    failed_records := some 0, failedRecords := none }

/-- A response sequence in which `b2` only appears from the second poll
on (terminal from then on), while `b1` is terminal from the start. -/
def lateResponses : Nat → PollResp :=
  fun n =>
    if n = 0 then .ok { batches := some [b1completed] }
    else .ok { batches := some [b1completed, b2completed] }

/-- A response sequence in which `b1` is running at the first poll and
completed from the second on. -/
def progressResponses : Nat → PollResp :=
  fun n =>
    if n = 0 then .ok { batches := some [runningBatch] }
    else .ok { batches := some [b1completed] }

end RunEval

namespace RunEval

/-- Claim C7: `truncateText` with limit 40 returns any string of length
at most 40 unchanged; a longer string is clipped to its first 37
characters plus a 3-character ellipsis, giving length exactly 40. -/
theorem truncateText_spec (s : String) :
    (s.length ≤ 40 → truncateText (.str s) 40 = s) ∧
    (40 < s.length →
      truncateText (.str s) 40 = String.mk (s.data.take 37) ++ "..." ∧
      (truncateText (.str s) 40).length = 40) := by
  constructor
  · intro hle
    by_cases hs : s = ""
    · subst hs; rfl
    · simp only [truncateText, jsFalsy, beq_iff_eq, hs, if_false]
      simp [hle]
  · intro hgt
    have hs : s ≠ "" := by
      intro h; subst h; exact absurd hgt (by decide)
    have hnle : ¬ s.length ≤ 40 := not_le.mpr hgt
    have hval : truncateText (.str s) 40 = jsSubstring s 37 ++ "..." := by
      simp only [truncateText, jsFalsy, beq_iff_eq, hs, if_false, hnle]
    refine ⟨hval, ?_⟩
    rw [hval]
    have hd : 40 < s.data.length := hgt
    have hdata : (jsSubstring s 37 ++ ("..." : String)).data
        = s.data.take 37 ++ ("..." : String).data := String.data_append _ _
    show (jsSubstring s 37 ++ ("..." : String)).data.length = 40
    rw [hdata, List.length_append, List.length_take]
    show min 37 s.data.length + 3 = 40
    omega

/-- Witness for C7 at concrete inputs: a short string passes through, a
41-character string is clipped to length 40. -/
theorem truncateText_spec_witness :
    truncateText (.str "hello") 40 = "hello" ∧
    truncateText (.str "aaaaaaaaaaaaaaaaaaaaaaaaaaaaaaaaaaaaaaaaa") 40
      = String.mk ("aaaaaaaaaaaaaaaaaaaaaaaaaaaaaaaaaaaaaaaaa".data.take 37) ++ "..." := by
  refine ⟨(truncateText_spec "hello").1 (by decide), ?_⟩
  exact ((truncateText_spec "aaaaaaaaaaaaaaaaaaaaaaaaaaaaaaaaaaaaaaaaa").2 (by decide)).1

/-- A string built as `a ++ t` ends with `t`. -/
theorem jsEndsWith_append (a t : String) : jsEndsWith (a ++ t) t = true := by
  unfold jsEndsWith
  rw [String.data_append]
  exact List.isSuffixOf_iff_suffix.mpr (List.suffix_append _ _)

/-- Dropping `t.length` characters from the end of `a ++ t` gives back
`a`. -/
theorem jsDropRight_append (a t : String) : jsDropRight (a ++ t) t.length = a := by
  unfold jsDropRight
  rw [String.data_append, List.length_append]
  have h : a.data.length + t.data.length - t.length = a.data.length := by
    have : t.length = t.data.length := rfl
    omega
  rw [h, List.take_left' rfl]

/-- `jsEndsWith` is false when the suffix relation fails on the data. -/
theorem jsEndsWith_false_of_not_suffix (s t : String)
    (h : ¬ (t.data <:+ s.data)) : jsEndsWith s t = false := by
  unfold jsEndsWith
  rcases hb : (t.data.isSuffixOf s.data) with _ | _
  · rfl
  · exact absurd (List.isSuffixOf_iff_suffix.mp hb) h

/-- Two lists whose last elements differ are not in the suffix
relation. -/
theorem not_suffix_of_getLast_ne (l₁ l₂ : List Char) (c₁ c₂ : Char)
    (h₁ : l₁.getLast? = some c₁) (h₂ : l₂.getLast? = some c₂) (hne : c₁ ≠ c₂) :
    ¬ (l₁ <:+ l₂) := by
  intro hsuf
  obtain ⟨u, hu⟩ := hsuf
  have hne1 : l₁ ≠ [] := by
    intro h; rw [h] at h₁; exact Option.noConfusion h₁
  have hlast : (u ++ l₁).getLast? = some c₁ := by
    rw [List.getLast?_append_of_ne_nil _ hne1, h₁]
  rw [hu, h₂] at hlast
  exact hne (Option.some.inj hlast).symm

/-- A string ending in a slash does not end in `/api`. -/
theorem jsEndsWith_slash_api_false (a : String) :
    jsEndsWith (a ++ "/") "/api" = false := by
  apply jsEndsWith_false_of_not_suffix
  rw [String.data_append]
  apply not_suffix_of_getLast_ne _ _ 'i' '/'
  · rfl
  · rw [List.getLast?_append_of_ne_nil _ (by decide)]; rfl
  · decide

/-- Claim C8, counterexample: the source strips the trailing `/api`
before it strips the trailing slash, so a configured value ending in
`/api/` keeps its `/api` segment — only the slash is removed — contrary
to the claim that a value ending in `/api/` yields a base URL without
the `/api` suffix. -/
theorem normalizeBaseUrl_api_slash_cx :
    jsEndsWith "http://localhost:8787/api/" "/api/" = true ∧
    normalizeBaseUrl "http://localhost:8787/api/" = "http://localhost:8787/api" ∧
    jsEndsWith (normalizeBaseUrl "http://localhost:8787/api/") "/api" = true := by
  refine ⟨by decide, by decide, by decide⟩

/-- Claim C8 as amended: for a base value that itself ends in neither a
slash nor `/api`, a trailing `/api` (not followed by a slash) is
stripped, a bare trailing slash is stripped, and a value ending in
`/api/` only loses the final slash, keeping `/api`. -/
theorem normalizeBaseUrl_spec (base : String)
    (h1 : jsEndsWith base "/" = false)
    (h2 : jsEndsWith base "/api" = false) :
    normalizeBaseUrl (base ++ "/api") = base ∧
    normalizeBaseUrl (base ++ "/api/") = base ++ "/api" ∧
    normalizeBaseUrl (base ++ "/") = base ∧
    normalizeBaseUrl base = base := by
  have eassoc : base ++ "/api/" = (base ++ "/api") ++ "/" := by
    rw [String.append_assoc]
    exact congrArg (base ++ ·) (by decide)
  have hstrip : stripTrailingSlash base = base := by
    unfold stripTrailingSlash
    rw [h1]
    simp
  have hslash : ∀ a : String, stripTrailingSlash (a ++ "/") = a := by
    intro a
    unfold stripTrailingSlash
    rw [jsEndsWith_append a "/"]
    simp only [if_true]
    exact jsDropRight_append a "/"
  have hdrop : jsDropRight (base ++ "/api") 4 = base := jsDropRight_append base "/api"
  refine ⟨?_, ?_, ?_, ?_⟩
  · unfold normalizeBaseUrl
    rw [jsEndsWith_append base "/api"]
    simp only [if_true]
    rw [hdrop, hstrip]
  · unfold normalizeBaseUrl
    rw [eassoc, jsEndsWith_slash_api_false (base ++ "/api")]
    simp only [Bool.false_eq_true, if_false]
    exact hslash (base ++ "/api")
  · unfold normalizeBaseUrl
    rw [jsEndsWith_slash_api_false base]
    simp only [Bool.false_eq_true, if_false]
    exact hslash base
  · unfold normalizeBaseUrl
    rw [h2]
    simp only [Bool.false_eq_true, if_false]
    exact hstrip

/-- Witness for C8 at the default production URL, which ends in neither
a slash nor `/api`. -/
theorem normalizeBaseUrl_spec_witness :
    normalizeBaseUrl ("https://api.travrse.ai" ++ "/api") = "https://api.travrse.ai" ∧
    normalizeBaseUrl ("https://api.travrse.ai" ++ "/api/") = "https://api.travrse.ai" ++ "/api" := by
  have h := normalizeBaseUrl_spec "https://api.travrse.ai" (by decide) (by decide)
  exact ⟨h.1, h.2.1⟩

/-- Claim C2, counterexample: `getEvalBatches` and `getEvalResults`
return the parsed server response unchanged, so a response using
camelCase field names is passed through with those names — the
snake_case field stays absent.  Only `submitEval` normalizes. -/
theorem getEvalBatches_no_normalization_cx :
    getEvalBatches none { batches := some [camelOnlyBatch] }
      = { batches := some [camelOnlyBatch] } ∧
    camelOnlyBatch.batch_execution_id = none ∧
    camelOnlyBatch.batchExecutionId = some "b1" ∧
    getEvalResults "b1" camelOnlyResultSet = camelOnlyResultSet ∧
    camelOnlyResultSet.eval_name = none ∧
    camelOnlyResultSet.evalName = some "e1" :=
  ⟨rfl, rfl, rfl, rfl, rfl, rfl⟩

/-- Claim C2 as amended: of the three API operations only `submitEval`
normalizes its return value to snake_case (group id, total evals and
each submission field); `getEvalBatches` and `getEvalResults` return
the parsed server response unchanged, and downstream code tolerates
both conventions with fallback chains at each use site. -/
theorem apiClient_normalization (sr : SubmitResponse) (f : Option String)
    (br : BatchesResponse) (bid : String) (rr : ResultSet) :
    (submitEval sr).eval_group_id = jsOrS sr.eval_group_id sr.evalGroupId ∧
    (submitEval sr).total_evals = jsOrI sr.total_evals sr.totalEvals ∧
    (submitEval sr).submissions = (sr.submissions.getD []).map normalizeSubmission ∧
    getEvalBatches f br = br ∧
    getEvalResults bid rr = rr :=
  ⟨rfl, rfl, rfl, rfl, rfl⟩

/-- Claim C3, counterexample: the `||`-based selections are decided by
truthiness, not by a null check.  A batch with `total_records = 0`
(non-null) and `totalRecords = 5` renders Total Records as `5`, and a
submission with `eval_name = ""` (non-null) and `evalName = "x"`
normalizes to `"x"` — in both cases the non-null snake_case value
loses. -/
theorem snake_nonnull_loses_cx :
    bothVariantsBatch.total_records = some 0 ∧
    summaryRow [] bothVariantsBatch = "| N/A | 5 | 0 | 0 | completed | N/A |" ∧
    (normalizeSubmission
      { eval_name := some ""
        evalName := some "x"
        batch_execution_id := none
        batchExecutionId := none
        status := none
        queue_name := none
        queueName := none }).eval_name = some "x" := by
  refine ⟨rfl, ?_, rfl⟩
  decide

/-- Claim C3 as amended: in the `||`-based selections (submission
fields, summary-table names and counts) the snake_case value wins
exactly when it is truthy — non-null and not `0` or `""`; otherwise the
camelCase value (or the site's default) is used.  Only the null-checked
selections, such as the per-step cost, let a non-null falsy snake_case
value win. -/
theorem fieldSelection_spec (a b : Option String) (x y : Option Int) (st : StepResult) :
    (∀ s, a = some s → s ≠ "" → jsOrS a b = some s) ∧
    ((a = none ∨ a = some "") → jsOrS a b = b) ∧
    (∀ n, x = some n → n ≠ 0 → jsOrI x y = some n) ∧
    ((x = none ∨ x = some 0) → jsOrI x y = y) ∧
    (∀ c, st.total_cost = some c → stepCost st = c) ∧
    (st.total_cost = none → ∀ c, st.totalCost = some c → stepCost st = c) ∧
    (st.total_cost = none → st.totalCost = none → stepCost st = 0) := by
  refine ⟨?_, ?_, ?_, ?_, ?_, ?_, ?_⟩
  · intro s hs hne; subst hs; simp [jsOrS, hne]
  · rintro (h | h) <;> subst h <;> simp [jsOrS]
  · intro n hn hne; subst hn; simp [jsOrI, hne]
  · rintro (h | h) <;> subst h <;> simp [jsOrI]
  · intro c hc; simp [stepCost, hc]
  · intro h c hc; simp [stepCost, h, hc]
  · intro h h'; simp [stepCost, h, h']

/-- Witness for C3 at concrete inputs: a truthy snake_case value wins,
a zero snake_case value loses to the camelCase one. -/
theorem fieldSelection_spec_witness :
    jsOrS (some "a") (some "b") = some "a" ∧ jsOrI (some 0) (some 7) = some 7 :=
  ⟨(fieldSelection_spec (some "a") (some "b") (some 2) (some 3) emptyStep).1
      "a" rfl (by decide),
   (fieldSelection_spec (some "a") (some "b") (some 0) (some 7) emptyStep).2.2.2.1
      (Or.inr rfl)⟩

/-- Sum over one record's steps: the source's running accumulator
equals the initial value plus the sum of the per-step costs. -/
theorem foldl_stepCost_eq (l : List StepResult) (a : ℚ) :
    l.foldl (fun x st => x + stepCost st) a = a + (l.map stepCost).sum := by
  induction l generalizing a with
  | nil => simp
  | cons st l ih => simp [ih, add_assoc]

/-- Sum over all records: the source's running accumulator equals the
initial value plus the sum of the per-record sums. -/
theorem foldl_records_eq (records : List (String × List StepResult)) (a : ℚ) :
    records.foldl (fun acc p => p.2.foldl (fun x st => x + stepCost st) acc) a
      = a + (records.map (fun p => (p.2.map stepCost).sum)).sum := by
  induction records generalizing a with
  | nil => simp
  | cons p ps ih =>
    rw [List.foldl_cons, foldl_stepCost_eq, ih]
    simp [add_assoc]

/-- Claim C6: `calculateTotalCost` equals the sum over every record of
the sum of every step's cost; it is 0 when the record map is absent or
empty, and a step with both cost fields missing/null contributes 0. -/
theorem calculateTotalCost_spec (rs : ResultSet) :
    calculateTotalCost rs
      = ((rs.results_by_record.getD []).map (fun p => (p.2.map stepCost).sum)).sum ∧
    (rs.results_by_record = none → calculateTotalCost rs = 0) ∧
    (rs.results_by_record = some [] → calculateTotalCost rs = 0) ∧
    (∀ st : StepResult, st.total_cost = none → st.totalCost = none → stepCost st = 0) := by
  refine ⟨?_, ?_, ?_, ?_⟩
  · cases hr : rs.results_by_record with
    | none => simp [calculateTotalCost, hr]
    | some records => simp [calculateTotalCost, hr, foldl_records_eq]
  · intro hr; simp [calculateTotalCost, hr]
  · intro hr; simp [calculateTotalCost, hr]
  · intro st h h'; simp [stepCost, h, h']

/-- Witness for C6 at a concrete result set: two records, three steps,
one with a null cost, summing to 5/2. -/
theorem calculateTotalCost_spec_witness :
    calculateTotalCost
      { eval_name := some "e1", evalName := none
        results_by_record := some
          [("r1", [{ emptyStep with total_cost := some 2 },
                   { emptyStep with totalCost := some (1/2) }]),
           ("r2", [emptyStep])] } = 5/2 := by
  rw [(calculateTotalCost_spec _).1]
  have h0 : stepCost emptyStep = 0 :=
    (calculateTotalCost_spec
      { eval_name := some "e1", evalName := none, results_by_record := none }).2.2.2
      emptyStep rfl rfl
  simp [stepCost, h0, emptyStep]
  norm_num

set_option maxRecDepth 4000 in
/-- Claim C4, counterexample: a batch whose ResultSet was fetched and
whose step costs are present and sum to zero still renders `N/A` in the
Total Cost cell, because the source tests `totalCost > 0`, not whether
the ResultSet is available. -/
theorem summary_na_on_present_zero_cx :
    List.lookup "b1" [("b1", zeroCostResultSet)] = some zeroCostResultSet ∧
    zeroCostResultSet.results_by_record
      = some [("r1", [{ emptyStep with total_cost := some 0 },
                      { emptyStep with total_cost := some 0 }])] ∧
    calculateTotalCost zeroCostResultSet = 0 ∧
    generateSummaryTable [fetchedBatch] [("b1", zeroCostResultSet)]
      = "## Summary\n\n"
        ++ "| Eval Name | Total Records | Processed | Failed | Status | Total Cost |\n"
        ++ "|-----------|---------------|-----------|--------|--------|------------|\n"
        ++ "| e1 | 2 | 2 | 0 | completed | N/A |\n" := by
  have hcost : calculateTotalCost zeroCostResultSet = 0 := by
    simp [calculateTotalCost, zeroCostResultSet, stepCost]
  refine ⟨rfl, rfl, hcost, ?_⟩
  have hbtc : batchTotalCost [("b1", zeroCostResultSet)] fetchedBatch = 0 := by
    simp only [batchTotalCost, jsBatchId, fetchedBatch, jsOrS]
    simp [hcost]
  have hrow : summaryRow [("b1", zeroCostResultSet)] fetchedBatch
      = "| e1 | 2 | 2 | 0 | completed | N/A |" := by
    simp only [summaryRow, summaryCostStr, hbtc]
    decide
  simp only [generateSummaryTable, List.map_cons, List.map_nil, hrow]
  decide

/-- Claim C4 as amended: the Total Cost cell is the 4-decimal currency
string exactly when the aggregated cost is strictly positive; `N/A` is
rendered whenever the aggregated cost is not positive — including for a
present ResultSet whose costs sum to zero — and when no ResultSet was
fetched for the batch. -/
theorem summaryCostStr_spec (m : List (String × ResultSet)) (b : Batch) :
    (summaryCostStr m b = "N/A" ↔ batchTotalCost m b ≤ 0) ∧
    (∀ id rs, jsBatchId b = some id → m.lookup id = some rs →
      0 < calculateTotalCost rs →
      summaryCostStr m b = "$" ++ toFixed4 (calculateTotalCost rs)) ∧
    (jsBatchId b = none → summaryCostStr m b = "N/A") := by
  have hdollar : ∀ x : String, ("$" ++ x : String) ≠ "N/A" := by
    intro x h
    have hd := congrArg String.data h
    rw [String.data_append] at hd
    simp at hd
  refine ⟨?_, ?_, ?_⟩
  · by_cases hlt : 0 < batchTotalCost m b
    · rw [summaryCostStr, if_pos hlt]
      constructor
      · intro h; exact absurd h (hdollar _)
      · intro h; exact absurd hlt (not_lt.mpr h)
    · rw [summaryCostStr, if_neg hlt]
      exact ⟨fun _ => not_lt.mp hlt, fun _ => rfl⟩
  · intro id rs hid hrs hpos
    have hb : batchTotalCost m b = calculateTotalCost rs := by
      simp [batchTotalCost, hid, hrs]
    rw [summaryCostStr, hb, if_pos hpos]
    rfl
  · intro hid
    have hb : batchTotalCost m b = 0 := by simp [batchTotalCost, hid]
    rw [summaryCostStr, hb, if_neg (lt_irrefl 0)]

/-- Witness for C4 at concrete inputs: with no fetch for the batch the
cell is `N/A`, and with a fetched ResultSet of positive cost the cell is
the formatted cost. -/
theorem summaryCostStr_spec_witness :
    summaryCostStr [] fetchedBatch = "N/A" ∧
    summaryCostStr [("b1", { eval_name := some "e1", evalName := none
                             results_by_record := some
                               [("r1", [{ emptyStep with total_cost := some 1 }])] })]
        fetchedBatch
      = "$" ++ toFixed4 (calculateTotalCost
          { eval_name := some "e1", evalName := none
            results_by_record := some
              [("r1", [{ emptyStep with total_cost := some 1 }])] }) := by
  constructor
  · exact (summaryCostStr_spec [] fetchedBatch).1.mpr (by decide)
  · exact (summaryCostStr_spec _ fetchedBatch).2.1 "b1" _ rfl rfl
      (by simp [calculateTotalCost, stepCost])

/-- `consoleOutput` distributes over list concatenation. -/
theorem consoleOutput_append (a b : List String) :
    consoleOutput (a ++ b) = consoleOutput a ++ consoleOutput b := by
  induction a with
  | nil => simp [consoleOutput]
  | cons x xs ih => simp [consoleOutput, ih, String.append_assoc]

/-- For a non-empty list of lines, joining with newlines and appending
one final newline is the same text a `console.log` per line writes. -/
theorem jsJoin_newline (ls : List String) (h : ls ≠ []) :
    jsJoin "\n" ls ++ "\n" = consoleOutput ls := by
  induction ls with
  | nil => exact absurd rfl h
  | cons x xs ih =>
    cases xs with
    | nil => simp [jsJoin, consoleOutput]
    | cons y ys =>
      show (x ++ "\n" ++ jsJoin "\n" (y :: ys)) ++ "\n" = x ++ "\n" ++ consoleOutput (y :: ys)
      rw [String.append_assoc x "\n" (jsJoin "\n" (y :: ys)),
        String.append_assoc x ("\n" ++ jsJoin "\n" (y :: ys)) "\n",
        String.append_assoc "\n" (jsJoin "\n" (y :: ys)) "\n",
        ih (by simp), String.append_assoc]

/-- The two renderers build each table row identically. -/
theorem stepRow_eq : mdStepRow = conStepRow := rfl

/-- Per record, the markdown lines and the console calls print the same
text. -/
theorem recordLines_output_eq (p : String × List StepResult) :
    consoleOutput (mdRecordLines p) = consoleOutput (conRecordCalls p) := by
  obtain ⟨rid, steps⟩ := p
  cases steps with
  | nil => rfl
  | cons first rest =>
    simp only [mdRecordLines, conRecordCalls, stepRow_eq]
    simp only [List.cons_append, List.nil_append, consoleOutput]
    rw [String.empty_append]
    simp only [String.append_assoc]

/-- Over all records, the markdown lines and the console calls print
the same text. -/
theorem flatMap_output_eq (records : List (String × List StepResult)) :
    consoleOutput (records.flatMap mdRecordLines)
      = consoleOutput (records.flatMap conRecordCalls) := by
  induction records with
  | nil => rfl
  | cons p ps ih =>
    simp only [List.flatMap_cons, consoleOutput_append, ih, recordLines_output_eq]

/-- The markdown `lines` array is never empty. -/
theorem generateDetailedResultsLines_ne_nil (r : ResultSet) :
    generateDetailedResultsLines r ≠ [] := by
  simp only [generateDetailedResultsLines]
  split <;> simp

/-- Claim C9: the console renderer and the markdown renderer agree —
the text `displayDetailedResults` prints is exactly the markdown
`generateDetailedResultsMarkdown` builds plus one final newline, so
both contain the same headings and the same table rows, identically
formatted, in the same order. -/
theorem detailedResults_renderers_agree (r : ResultSet) :
    displayDetailedResultsOutput r = generateDetailedResultsMarkdown r ++ "\n" := by
  unfold displayDetailedResultsOutput generateDetailedResultsMarkdown
  rw [jsJoin_newline _ (generateDetailedResultsLines_ne_nil r)]
  simp only [generateDetailedResultsLines, displayDetailedResultsCalls]
  by_cases h : (r.results_by_record.getD []).length = 0
  · rw [if_pos h, if_pos h]
    have hnl : ("No results found.\n" : String) ++ "\n"
        = "No results found." ++ ("\n" ++ "\n") := by decide
    simp only [consoleOutput, String.empty_append, String.append_empty,
      String.append_assoc]
    rw [hnl]
  · rw [if_neg h, if_neg h, consoleOutput_append, flatMap_output_eq]
    simp only [consoleOutput, String.empty_append, String.append_empty,
      String.append_assoc]

/-- Claim C10: `truncateText` returns the empty string on every falsy
input — empty string, `null`, `undefined`, the number 0 and `false` — so
a falsy non-string is never serialized to its JSON text: the number 0,
whose JSON text is `"0"`, previews as `""`. -/
theorem truncateText_falsy :
    truncateText (.str "") 40 = "" ∧
    truncateText .null 40 = "" ∧
    truncateText .undef 40 = "" ∧
    truncateText (.num 0) 40 = "" ∧
    truncateText (.bool false) 40 = "" ∧
    jsonStringify (.num 0) = "0" :=
  ⟨rfl, rfl, rfl, rfl, rfl, rfl⟩

/-- An iteration past its deadline throws the timeout error. -/
theorem pollRun_timeout_step (batchIds : List (Option String))
    (responses : Nat → PollResp) (elapsed : Nat → Nat) (maxWait fuel n : Nat)
    (hm : maxWait < elapsed n) :
    pollRun batchIds responses elapsed maxWait (fuel + 1) n = some (.timeout n) := by
  simp [pollRun, hm]

/-- An iteration within the deadline whose response does not satisfy
the return test just recurses at the next index. -/
theorem pollRun_continue_step (batchIds : List (Option String))
    (responses : Nat → PollResp) (elapsed : Nat → Nat) (maxWait fuel n : Nat)
    (hm : ¬ maxWait < elapsed n)
    (hc : pollIterReturns batchIds (responses n) = false) :
    pollRun batchIds responses elapsed maxWait (fuel + 1) n
      = pollRun batchIds responses elapsed maxWait fuel (n + 1) := by
  cases hr : responses n with
  | err => simp [pollRun, hm, hr]
  | ok resp =>
    have hall : (((getEvalBatches none resp).batches.getD []).filter
        (isOurBatch batchIds)).all isFinishedBatch = false := by
      rw [hr] at hc
      exact hc
    simp [pollRun, hm, hr, hall]

/-- An iteration within the deadline whose response satisfies the
return test returns that response's tracked batches. -/
theorem pollRun_return_step (batchIds : List (Option String))
    (responses : Nat → PollResp) (elapsed : Nat → Nat) (maxWait fuel n : Nat)
    (hm : ¬ maxWait < elapsed n)
    (hc : pollIterReturns batchIds (responses n) = true) :
    pollRun batchIds responses elapsed maxWait (fuel + 1) n
      = some (.returned n (ourBatchesOf batchIds (responses n))) := by
  cases hr : responses n with
  | err => rw [hr] at hc; exact absurd hc (by simp [pollIterReturns])
  | ok resp =>
    have hall : (((getEvalBatches none resp).batches.getD []).filter
        (isOurBatch batchIds)).all isFinishedBatch = true := by
      rw [hr] at hc
      exact hc
    simp only [pollRun, hr]
    rw [if_neg hm]
    show (if (((getEvalBatches none resp).batches.getD []).filter
        (isOurBatch batchIds)).all isFinishedBatch = true
      then some (PollOutcome.returned n (((getEvalBatches none resp).batches.getD
        []).filter (isOurBatch batchIds)))
      else pollRun batchIds responses elapsed maxWait fuel (n + 1))
      = some (PollOutcome.returned n (ourBatchesOf batchIds (PollResp.ok resp)))
    rw [hall]
    rfl

/-- As long as every earlier iteration stays within the deadline and
fails the return test, the loop reaches iteration `N` with the
remaining fuel. -/
theorem pollRun_skip (batchIds : List (Option String))
    (responses : Nat → PollResp) (elapsed : Nat → Nat) (maxWait N : Nat)
    (hcont : ∀ m, m < N →
      elapsed m ≤ maxWait ∧ pollIterReturns batchIds (responses m) = false) :
    ∀ fuel n, n ≤ N → N - n < fuel →
      pollRun batchIds responses elapsed maxWait fuel n
        = pollRun batchIds responses elapsed maxWait (fuel - (N - n)) N := by
  intro fuel
  induction fuel with
  | zero => intro n _ hf; omega
  | succ fuel ih =>
    intro n hn hf
    rcases eq_or_lt_of_le hn with heq | hlt
    · subst heq
      simp
    · have hc := hcont n hlt
      rw [pollRun_continue_step batchIds responses elapsed maxWait fuel n
        (not_lt.mpr hc.1) hc.2]
      rw [ih (n + 1) hlt (by omega)]
      congr 1
      omega

/-- Claim C1, counterexample: with one submission `b1` and a server
that returns an empty batch list at every poll (so `b1` never appears
in any response — `emptyPollResponses` is constant), `pollForCompletion`
does not run to the deadline: `ourBatches` is empty, `Array.every` on
an empty array is `true`, and the loop returns an empty batch list at
the very first iteration. -/
theorem poll_missing_batch_cx :
    submissionBatchIds [lonelySubmission] = [some "b1"] ∧
    batchAppears "b1" (emptyPollResponses 0) = false ∧
    pollRun [some "b1"] emptyPollResponses (fun n => n * 5000) 1800000 1 0
      = some (.returned 0 []) :=
  ⟨rfl, rfl, rfl⟩

/-- Claim C1 as amended: if every poll response either fails or shows
at least one submitted batch in a non-terminal state (so the return
test fails at every iteration), `pollForCompletion` never returns a
result; at the first iteration whose elapsed time exceeds the maximum
wait it throws the timeout error. -/
theorem pollForCompletion_timeout (batchIds : List (Option String))
    (responses : Nat → PollResp) (elapsed : Nat → Nat) (maxWait N fuel : Nat)
    (H : ∀ n, pollIterReturns batchIds (responses n) = false)
    (hle : ∀ m, m < N → elapsed m ≤ maxWait)
    (hgt : maxWait < elapsed N)
    (hfuel : N < fuel) :
    pollRun batchIds responses elapsed maxWait fuel 0 = some (.timeout N) := by
  have hskip := pollRun_skip batchIds responses elapsed maxWait N
    (fun m hm => ⟨hle m hm, H m⟩) fuel 0 (Nat.zero_le N) (by omega)
  rw [hskip]
  obtain ⟨k, hk⟩ : ∃ k, fuel - (N - 0) = k + 1 := ⟨fuel - (N - 0) - 1, by omega⟩
  rw [hk, pollRun_timeout_step batchIds responses elapsed maxWait k N hgt]

/-- Witness for C1 at a concrete scenario: `b1` is reported running at
every poll; with a 12ms deadline and the elapsed times 0, 5, 10, 15,
the run times out at iteration 3. -/
theorem pollForCompletion_timeout_witness :
    pollRun [some "b1"] stuckResponses (fun n => n * 5) 12 4 0
      = some (.timeout 3) :=
  pollForCompletion_timeout [some "b1"] stuckResponses (fun n => n * 5) 12 3 4
    (fun _ => rfl) (by decide) (by decide) (by decide)

/-- A loop that reaches a returning iteration within the deadline
returns that iteration's tracked batches. -/
theorem pollRun_returns_at (batchIds : List (Option String))
    (responses : Nat → PollResp) (elapsed : Nat → Nat) (maxWait N fuel : Nat)
    (hN : pollIterReturns batchIds (responses N) = true)
    (hbefore : ∀ m, m < N → pollIterReturns batchIds (responses m) = false)
    (htime : ∀ m, m ≤ N → elapsed m ≤ maxWait)
    (hfuel : N < fuel) :
    pollRun batchIds responses elapsed maxWait fuel 0
      = some (.returned N (ourBatchesOf batchIds (responses N))) := by
  have hskip := pollRun_skip batchIds responses elapsed maxWait N
    (fun m hm => ⟨htime m (le_of_lt hm), hbefore m hm⟩) fuel 0 (Nat.zero_le N) (by omega)
  rw [hskip]
  obtain ⟨k, hk⟩ : ∃ k, fuel - (N - 0) = k + 1 := ⟨fuel - (N - 0) - 1, by omega⟩
  rw [hk, pollRun_return_step batchIds responses elapsed maxWait k N
    (not_lt.mpr (htime N (le_refl N))) hN]

/-- `isOurBatch` tests membership of the batch's id among the tracked
ids. -/
theorem isOurBatch_mem (batchIds : List (Option String)) (b : Batch) :
    isOurBatch batchIds b = true ↔ jsBatchId b ∈ batchIds := by
  simp [isOurBatch, List.contains]

/-- Claim C5, counterexample: submissions `b1` and `b2`; `b2` appears
(completed) in every response from the second poll on, so every
submitted batch eventually appears terminal — yet the poller returns at
the first poll, whose response holds only `b1`, and the returned list
does not contain `b2`. -/
theorem poll_eventual_terminal_cx :
    submissionBatchIds
      [{ eval_name := some "e1", batch_execution_id := some "b1"
         status := some "queued", queue_name := none },
       { eval_name := some "e2", batch_execution_id := some "b2"
         status := some "queued", queue_name := none }] = [some "b1", some "b2"] ∧
    batchAppears "b2" (lateResponses 0) = false ∧
    batchAppears "b2" (lateResponses 1) = true ∧
    isFinishedBatch b2completed = true ∧
    pollRun [some "b1", some "b2"] lateResponses (fun n => n * 5000) 1800000 5 0
      = some (.returned 0 [b1completed]) ∧
    ([b1completed].any fun b => jsBatchId b == some "b2") = false :=
  ⟨rfl, rfl, rfl, rfl, rfl, rfl⟩

/-- Claim C5 as amended: the poller returns at the first poll `N` whose
response (reached within the deadline) lists every tracked batch it
contains as `completed` or `failed`, and it returns exactly the tracked
batches of that response: each returned batch's id is in the submitted
set, and every submitted id appearing in response `N` is represented.
Responses after iteration `N` never influence the result — no further
status call matters. -/
theorem pollForCompletion_first_done (batchIds : List (Option String))
    (responses : Nat → PollResp) (elapsed : Nat → Nat) (maxWait N fuel : Nat)
    (hN : pollIterReturns batchIds (responses N) = true)
    (hbefore : ∀ m, m < N → pollIterReturns batchIds (responses m) = false)
    (htime : ∀ m, m ≤ N → elapsed m ≤ maxWait)
    (hfuel : N < fuel) :
    pollRun batchIds responses elapsed maxWait fuel 0
      = some (.returned N (ourBatchesOf batchIds (responses N))) ∧
    (∀ b, b ∈ ourBatchesOf batchIds (responses N) → jsBatchId b ∈ batchIds) ∧
    (∀ i, i ∈ batchIds →
      (∃ b, b ∈ rawBatchesOf (responses N) ∧ jsBatchId b = i) →
      ∃ b, b ∈ ourBatchesOf batchIds (responses N) ∧ jsBatchId b = i) ∧
    (∀ responses' : Nat → PollResp, (∀ m, m ≤ N → responses' m = responses m) →
      pollRun batchIds responses' elapsed maxWait fuel 0
        = some (.returned N (ourBatchesOf batchIds (responses N)))) := by
  refine ⟨?_, ?_, ?_, ?_⟩
  · exact pollRun_returns_at batchIds responses elapsed maxWait N fuel
      hN hbefore htime hfuel
  · intro b hb
    have := List.mem_filter.mp hb
    exact (isOurBatch_mem batchIds b).mp this.2
  · intro i hi hex
    obtain ⟨b, hbmem, hbid⟩ := hex
    exact ⟨b, List.mem_filter.mpr ⟨hbmem, (isOurBatch_mem batchIds b).mpr
      (hbid ▸ hi)⟩, hbid⟩
  · intro responses' hag
    have h' := pollRun_returns_at batchIds responses' elapsed maxWait N fuel
      (by rw [hag N (le_refl N)]; exact hN)
      (fun m hm => by rw [hag m (le_of_lt hm)]; exact hbefore m hm)
      htime hfuel
    rw [h', hag N (le_refl N)]

/-- Witness for C5 at a concrete scenario: `b1` is running at poll 0
and completed at poll 1; the poller returns at iteration 1 with the
tracked batches of that response. -/
theorem pollForCompletion_first_done_witness :
    pollRun [some "b1"] progressResponses (fun n => n * 5) 100 3 0
      = some (.returned 1 (ourBatchesOf [some "b1"] (progressResponses 1))) :=
  (pollForCompletion_first_done [some "b1"] progressResponses (fun n => n * 5)
    100 1 3 (by decide) (by decide) (by decide) (by decide)).1

end RunEval
